import Mathlib

set_option linter.unusedSectionVars false

/-
Verification of the plotting utilities in `src/utils/plotting.py`:
a token-relevance heatmap renderer (`jupyter_heatmap`), a token
decoding/escaping helper (`decode_tokens_for_plotting`) and a bubble-chart
plotter (`plot_atlas`).  Python strings are modelled as `List Char`,
floats as `ℚ`, and the pandas data frame as a list of records plus a
dtype tag for the color column.
-/

/-! Token decoder / escaper -/

/-- The list `special_characters = ['&', '%', '$', '#', '_', '{', '}', '\\']`
from `decode_tokens_for_plotting`. -/
def specialCharacters : List Char := ['&', '%', '$', '#', '_', '{', '}', '\\']

/-- Python `t.replace(c, r)` for a single-character pattern `c`:
every occurrence of `c` in `t` is replaced by the string `r`. -/
def replaceAll (c : Char) (r : List Char) : List Char → List Char
  | [] => []
  | x :: xs => (if x = c then r else [x]) ++ replaceAll c r xs

/-- The per-token body of the loop in `decode_tokens_for_plotting`: for each
special character present in the ORIGINAL token `t`, the slot is overwritten
with `t.replace(special_character, '\\' + special_character)`.  Note the
replacement is always applied to `t`, not to the previously stored value. -/
def escapeToken (t : List Char) : List Char :=
  specialCharacters.foldl
    (fun acc c => if c ∈ t then replaceAll c ['\\', c] t else acc) t

/-- `decode_tokens_for_plotting(input_ids, tokenizer)`: decode each id with
`tokenizer.decode([idx])` (modelled by `decode1`) and apply the escaping loop. -/
def decode_tokens_for_plotting (input_ids : List Nat) (decode1 : Nat → List Char) :
    List (List Char) :=
  (input_ids.map (fun idx => decode1 idx)).map escapeToken

lemma replaceAll_of_not_mem {c : Char} {t : List Char} (r : List Char) (h : c ∉ t) :
    replaceAll c r t = t := by
  induction t with
  | nil => rfl
  | cons x xs ih =>
    rw [List.mem_cons, not_or] at h
    rw [replaceAll, if_neg (fun hxc => h.1 hxc.symm), ih h.2, List.singleton_append]

lemma escape_foldl_eq (t : List Char) (c : Char) (l : List Char)
    (hl : ∀ c' ∈ l, c' ∈ t → c' = c) (a : List Char) :
    List.foldl (fun acc c' => if c' ∈ t then replaceAll c' ['\\', c'] t else acc) a l =
      if c ∈ l ∧ c ∈ t then replaceAll c ['\\', c] t else a := by
  induction l generalizing a with
  | nil => simp
  | cons x xs ih =>
    have hxs : ∀ c' ∈ xs, c' ∈ t → c' = c :=
      fun c' h' => hl c' (List.mem_cons_of_mem _ h')
    by_cases hx : x ∈ t
    · have hxc : x = c := hl x (List.mem_cons_self _ _) hx
      subst hxc
      rw [List.foldl_cons, if_pos hx, ih hxs]
      by_cases hcxs : x ∈ xs
      · simp [hcxs, hx]
      · simp [hx]
    · rw [List.foldl_cons, if_neg hx, ih hxs]
      by_cases hct : c ∈ t
      · have hcx : ¬ (c = x) := fun h => hx (h ▸ hct)
        simp [hct, List.mem_cons, hcx]
      · simp [hct]

/-- C9: `decode_tokens_for_plotting` maps the escaping loop over the decoded
tokens, hence returns one token per input id; a decoded token containing none
of the eight special characters is returned unchanged; and a decoded token
containing occurrences of at most one distinct special character `c` has every
occurrence of `c` escaped by a preceding backslash. -/
theorem decode_tokens_shape (input_ids : List Nat) (decode1 : Nat → List Char) :
    decode_tokens_for_plotting input_ids decode1 = (input_ids.map decode1).map escapeToken ∧
    (decode_tokens_for_plotting input_ids decode1).length = input_ids.length ∧
    (∀ t : List Char, (∀ c ∈ specialCharacters, c ∉ t) → escapeToken t = t) ∧
    (∀ t : List Char, ∀ c ∈ specialCharacters,
      (∀ c' ∈ specialCharacters, c' ∈ t → c' = c) →
      escapeToken t = replaceAll c ['\\', c] t) := by
  refine ⟨rfl, by simp [decode_tokens_for_plotting], ?_, ?_⟩
  · intro t h
    have hfold := escape_foldl_eq t '&' specialCharacters
      (fun c' h' hmem => absurd hmem (h c' h')) t
    rw [escapeToken, hfold, if_neg]
    rintro ⟨-, hmem⟩
    exact h '&' (by simp [specialCharacters]) hmem
  · intro t c hc h
    rw [escapeToken, escape_foldl_eq t c specialCharacters h t]
    by_cases hct : c ∈ t
    · rw [if_pos ⟨hc, hct⟩]
    · rw [if_neg (fun hh => hct hh.2), replaceAll_of_not_mem _ hct]

/-- Witness for C9 at concrete inputs: two ids give two tokens, a token with
no special character is unchanged, and a token whose only special character is
`_` has both underscores escaped. -/
theorem decode_tokens_shape_witness :
    (decode_tokens_for_plotting [3, 5] (fun _ => ['h', 'i'])).length = 2 ∧
    escapeToken ['h', 'i'] = ['h', 'i'] ∧
    escapeToken ['a', '_', 'b', '_'] = replaceAll '_' ['\\', '_'] ['a', '_', 'b', '_'] :=
  ⟨(decode_tokens_shape [3, 5] (fun _ => ['h', 'i'])).2.1,
   (decode_tokens_shape [] (fun _ => [])).2.2.1 ['h', 'i'] (by decide),
   (decode_tokens_shape [] (fun _ => [])).2.2.2 ['a', '_', 'b', '_'] '_' (by decide) (by decide)⟩

/-- C1: evaluation at the failing input.  For a token that decodes to `"&_"`
(two distinct special characters), each inner-loop iteration overwrites the
slot with a replacement applied to the ORIGINAL token `t`, so the earlier
escape of `&` is discarded and only the later `_` is escaped: the result is
`"&\_"`, not the fully escaped `"\&\_"` the claim requires, and stripping
inserted backslashes cannot restore the original for such tokens. -/
theorem decode_tokens_escape_bug :
    decode_tokens_for_plotting [0] (fun _ => ['&', '_']) = [['&', '\\', '_']] ∧
    decode_tokens_for_plotting [0] (fun _ => ['&', '_']) ≠ [['\\', '&', '\\', '_']] := by
  decide

/-! Relevance heatmap renderer -/

/-- The `relevances` argument of `jupyter_heatmap`: its values, together with
whether the object exposes bulk range inspection, i.e. whether
`hasattr(relevances, 'min')` holds (true for a numpy array, false for a
plain list). -/
structure RelInput where
  values : List ℚ
  hasMinAttr : Bool

/-- One rendered `<span>` element: its background RGB components, its text
color and the token it displays. -/
structure Span where
  r : Int
  g : Int
  b : Int
  textColor : String
  token : List Char

/-- Python `int()` applied to a rational: truncation toward zero. -/
def pyInt (x : ℚ) : Int :=
  if 0 ≤ x then ⌊x⌋ else -⌊-x⌋

/-- The luminance formula `(0.299 * r + 0.587 * g + 0.114 * b) / 255`. -/
def luminanceOf (r g b : Int) : ℚ :=
  (0.299 * r + 0.587 * g + 0.114 * b) / 255

/-- The loop body of `jupyter_heatmap`: apply the colormap (modelled as an
arbitrary function `cmapFn`, standing for `_apply_colormap(·, cmap)`), scale
to byte components with `int(rgb[i]*255)`, choose white text below luminance
0.5 and black at or above it. -/
def renderSpan (cmapFn : ℚ → ℚ × ℚ × ℚ) (token : List Char) (relevance : ℚ) : Span :=
  let rgb := cmapFn relevance
  let r := pyInt (rgb.1 * 255)
  let g := pyInt (rgb.2.1 * 255)
  let b := pyInt (rgb.2.2 * 255)
  { r := r, g := g, b := b,
    textColor := if luminanceOf r g b < 0.5 then "white" else "black",
    token := token }

/-- The background luminance of a rendered element. -/
def Span.luminance (s : Span) : ℚ := luminanceOf s.r s.g s.b

/-- `relevances.min()`: the numpy reduction, which on a zero-size array has
no identity and raises `ValueError` (modelled as `none`). -/
def npMin : List ℚ → Option ℚ
  | [] => none
  | x :: xs => some (xs.foldl min x)

/-- `relevances.max()`, modelled like `npMin`. -/
def npMax : List ℚ → Option ℚ
  | [] => none
  | x :: xs => some (xs.foldl max x)

/-- Message of the length assertion in `jupyter_heatmap`. -/
def lengthErrorMsg : String := "The number of tokens and relevances must be the same."

/-- Message of the range assertion in `jupyter_heatmap`. -/
def rangeErrorMsg : String := "The relevances must be normalized between -1 and 1."

/-- Message of numpy's `ValueError` for a min reduction over a zero-size
array. -/
def valueErrorMsg : String :=
  "zero-size array to reduction operation minimum which has no identity"

/-- The guarded assert of `jupyter_heatmap`: only when the relevances object
has a `min` attribute, evaluate `relevances.min()` and `relevances.max()`
(raising numpy's zero-size reduction `ValueError` on an empty array) and
assert `relevances.min() >= -1 and relevances.max() <= 1`. -/
def rangeCheck (hasMinAttr : Bool) (values : List ℚ) : Except String Unit :=
  if hasMinAttr = true then
    match npMin values, npMax values with
    | some mn, some mx =>
        if ¬(-1 ≤ mn ∧ mx ≤ 1) then .error rangeErrorMsg else .ok ()
    | _, _ => .error valueErrorMsg
  else .ok ()

/-- `jupyter_heatmap(tokens, relevances, cmap)`: assert equal lengths, run
the guarded range check (which on a `min`-bearing empty input raises numpy's
`ValueError`), then build one styled span per `(token, relevance)` pair of
`zip(tokens, relevances)`.  A raised error is an error result produced
before any span is built. -/
def jupyter_heatmap (tokens : List (List Char)) (relevances : RelInput)
    (cmapFn : ℚ → ℚ × ℚ × ℚ) : Except String (List Span) :=
  if tokens.length ≠ relevances.values.length then
    .error lengthErrorMsg
  else
    match rangeCheck relevances.hasMinAttr relevances.values with
    | .error e => .error e
    | .ok _ =>
        .ok ((tokens.zip relevances.values).map (fun p => renderSpan cmapFn p.1 p.2))

lemma rangeCheck_false (values : List ℚ) : rangeCheck false values = Except.ok () := rfl

lemma rangeCheck_true_nil : rangeCheck true [] = Except.error valueErrorMsg := rfl

lemma rangeCheck_true_cons (x : ℚ) (xs : List ℚ) :
    rangeCheck true (x :: xs) =
      if ¬(-1 ≤ xs.foldl min x ∧ xs.foldl max x ≤ 1) then Except.error rangeErrorMsg
      else Except.ok () := rfl

lemma jupyter_heatmap_of_len_eq (tokens : List (List Char)) (values : List ℚ)
    (hasMin : Bool) (cmapFn : ℚ → ℚ × ℚ × ℚ) (hlen : tokens.length = values.length) :
    jupyter_heatmap tokens ⟨values, hasMin⟩ cmapFn =
      match rangeCheck hasMin values with
      | .error e => .error e
      | .ok _ =>
          .ok ((tokens.zip values).map (fun p => renderSpan cmapFn p.1 p.2)) := by
  unfold jupyter_heatmap
  rw [if_neg (by simp [hlen])]

lemma foldl_min_le_init (l : List ℚ) (a : ℚ) : l.foldl min a ≤ a := by
  induction l generalizing a with
  | nil => exact le_refl a
  | cons x xs ih => exact le_trans (ih (min a x)) (min_le_left a x)

lemma foldl_min_le_of_mem {l : List ℚ} {v : ℚ} (a : ℚ) (h : v ∈ l) :
    l.foldl min a ≤ v := by
  induction l generalizing a with
  | nil => cases h
  | cons x xs ih =>
    rcases List.mem_cons.mp h with rfl | hv
    · exact le_trans (foldl_min_le_init xs (min a v)) (min_le_right a v)
    · exact ih (min a x) hv

lemma le_foldl_min {l : List ℚ} {c a : ℚ} (hc : c ≤ a) (h : ∀ v ∈ l, c ≤ v) :
    c ≤ l.foldl min a := by
  induction l generalizing a with
  | nil => exact hc
  | cons x xs ih =>
    exact ih (le_min hc (h x (List.mem_cons_self _ _)))
      (fun v hv => h v (List.mem_cons_of_mem _ hv))

lemma init_le_foldl_max (l : List ℚ) (a : ℚ) : a ≤ l.foldl max a := by
  induction l generalizing a with
  | nil => exact le_refl a
  | cons x xs ih => exact le_trans (le_max_left a x) (ih (max a x))

lemma mem_le_foldl_max {l : List ℚ} {v : ℚ} (a : ℚ) (h : v ∈ l) :
    v ≤ l.foldl max a := by
  induction l generalizing a with
  | nil => cases h
  | cons x xs ih =>
    rcases List.mem_cons.mp h with rfl | hv
    · exact le_trans (le_max_right a v) (init_le_foldl_max xs (max a v))
    · exact ih (max a x) hv

lemma foldl_max_le {l : List ℚ} {c a : ℚ} (hc : a ≤ c) (h : ∀ v ∈ l, v ≤ c) :
    l.foldl max a ≤ c := by
  induction l generalizing a with
  | nil => exact hc
  | cons x xs ih =>
    exact ih (max_le hc (h x (List.mem_cons_self _ _)))
      (fun v hv => h v (List.mem_cons_of_mem _ hv))

lemma cons_min_le_of_mem {x : ℚ} {xs : List ℚ} {v : ℚ} (h : v ∈ x :: xs) :
    xs.foldl min x ≤ v := by
  rcases List.mem_cons.mp h with rfl | hv
  · exact foldl_min_le_init xs v
  · exact foldl_min_le_of_mem x hv

lemma le_cons_max_of_mem {x : ℚ} {xs : List ℚ} {v : ℚ} (h : v ∈ x :: xs) :
    v ≤ xs.foldl max x := by
  rcases List.mem_cons.mp h with rfl | hv
  · exact init_le_foldl_max xs v
  · exact mem_le_foldl_max x hv

lemma range_check_of_bounds {x : ℚ} {xs : List ℚ} (h : ∀ v ∈ x :: xs, -1 ≤ v ∧ v ≤ 1) :
    -1 ≤ xs.foldl min x ∧ xs.foldl max x ≤ 1 := by
  refine ⟨le_foldl_min (h x (List.mem_cons_self _ _)).1
      (fun v hv => (h v (List.mem_cons_of_mem _ hv)).1), ?_⟩
  exact foldl_max_le (h x (List.mem_cons_self _ _)).2
    (fun v hv => (h v (List.mem_cons_of_mem _ hv)).2)

lemma renderSpan_textColor_eq (cmapFn : ℚ → ℚ × ℚ × ℚ) (token : List Char) (relevance : ℚ) :
    (renderSpan cmapFn token relevance).textColor =
      if (renderSpan cmapFn token relevance).luminance < 0.5 then "white" else "black" := rfl

lemma renderSpan_textColor_iff (cmapFn : ℚ → ℚ × ℚ × ℚ) (token : List Char) (relevance : ℚ) :
    ((renderSpan cmapFn token relevance).textColor = "white" ↔
      (renderSpan cmapFn token relevance).luminance < 1/2) ∧
    ((renderSpan cmapFn token relevance).textColor = "black" ↔
      1/2 ≤ (renderSpan cmapFn token relevance).luminance) := by
  have hhalf : (0.5 : ℚ) = 1/2 := by norm_num
  rw [renderSpan_textColor_eq, hhalf]
  by_cases h : (renderSpan cmapFn token relevance).luminance < 1/2
  · rw [if_pos h]
    exact ⟨⟨fun _ => h, fun _ => rfl⟩,
      ⟨fun hb => absurd hb (by decide), fun hb => absurd h (not_lt.mpr hb)⟩⟩
  · rw [if_neg h]
    exact ⟨⟨fun hw => absurd hw (by decide), fun hl => absurd hl h⟩,
      ⟨fun _ => not_lt.mp h, fun _ => rfl⟩⟩

/-- C4: every element rendered by `jupyter_heatmap` has white text exactly
when its background luminance `(0.299*R + 0.587*G + 0.114*B)/255` is below
`1/2`, and black text exactly when that luminance is at or above `1/2`. -/
theorem jupyter_heatmap_text_color (tokens : List (List Char)) (relevances : RelInput)
    (cmapFn : ℚ → ℚ × ℚ × ℚ) (spans : List Span)
    (hok : jupyter_heatmap tokens relevances cmapFn = Except.ok spans) :
    ∀ s ∈ spans, (s.textColor = "white" ↔ s.luminance < 1/2) ∧
      (s.textColor = "black" ↔ 1/2 ≤ s.luminance) := by
  unfold jupyter_heatmap at hok
  split_ifs at hok with h1
  split at hok
  · cases hok
  · cases hok
    intro s hs
    obtain ⟨p, hp, rfl⟩ := List.mem_map.mp hs
    exact renderSpan_textColor_iff cmapFn p.1 p.2

/-- A concrete colormap for witnesses: constant white `(1, 1, 1)`. -/
def exCmap : ℚ → ℚ × ℚ × ℚ := fun _ => (1, 1, 1)

/-- Witness for C4: on a white background (luminance 1) the rendered element
gets black text. -/
theorem jupyter_heatmap_text_color_witness :
    (renderSpan exCmap ['a'] 0).textColor = "black" := by
  have h := jupyter_heatmap_text_color [['a']] ⟨[0], false⟩ exCmap
    [renderSpan exCmap ['a'] 0] rfl (renderSpan exCmap ['a'] 0)
    (List.mem_singleton.mpr rfl)
  refine h.2.mpr ?_
  show (1 : ℚ)/2 ≤ luminanceOf (pyInt ((1:ℚ) * 255)) (pyInt ((1:ℚ) * 255)) (pyInt ((1:ℚ) * 255))
  norm_num [pyInt, luminanceOf]

/-- C5 counterexample: at `tokens = []` with an empty `min`-bearing (numpy)
relevance input the lengths agree and every relevance lies in `[-1, 1]`
vacuously, yet the call raises numpy's zero-size reduction error — it does
not render the empty span list the claim promises. -/
theorem jupyter_heatmap_empty_numpy_counterexample :
    jupyter_heatmap [] ⟨[], true⟩ exCmap = Except.error valueErrorMsg ∧
    jupyter_heatmap [] ⟨[], true⟩ exCmap ≠ Except.ok [] := by
  have h0 : jupyter_heatmap [] ⟨[], true⟩ exCmap = Except.error valueErrorMsg := rfl
  exact ⟨h0, fun h => Except.noConfusion (h0.symm.trans h)⟩

/-- C5 (amended): with equal-length inputs whose relevances all lie in
`[-1, 1]` and are non-empty whenever the relevances object exposes a `min`
attribute (on a `min`-bearing empty input the zero-size reduction raises
instead), `jupyter_heatmap` succeeds and renders exactly one span per token
in input order (the rendered tokens, in order, are the input tokens); with
lengths differing it fails with the length validation error before
rendering. -/
theorem jupyter_heatmap_render_contract (tokens : List (List Char)) (values : List ℚ)
    (hasMin : Bool) (cmapFn : ℚ → ℚ × ℚ × ℚ) :
    (tokens.length = values.length → (∀ v ∈ values, -1 ≤ v ∧ v ≤ 1) →
      (hasMin = true → values ≠ []) →
      ∃ spans, jupyter_heatmap tokens ⟨values, hasMin⟩ cmapFn = Except.ok spans ∧
        spans.map Span.token = tokens) ∧
    (tokens.length ≠ values.length →
      jupyter_heatmap tokens ⟨values, hasMin⟩ cmapFn = Except.error lengthErrorMsg) := by
  constructor
  · intro hlen hrange hne
    refine ⟨(tokens.zip values).map (fun p => renderSpan cmapFn p.1 p.2), ?_, ?_⟩
    · rw [jupyter_heatmap_of_len_eq tokens values hasMin cmapFn hlen]
      have hcheck : rangeCheck hasMin values = Except.ok () := by
        cases hasMin with
        | false => exact rangeCheck_false values
        | true =>
          cases values with
          | nil => exact absurd rfl (hne rfl)
          | cons x xs =>
            rw [rangeCheck_true_cons,
              if_neg (not_not_intro (range_check_of_bounds hrange))]
      rw [hcheck]
    · rw [List.map_map]
      have hcomp : (Span.token ∘ fun p : List Char × ℚ => renderSpan cmapFn p.1 p.2) =
          Prod.fst := by
        funext p; rfl
      rw [hcomp, List.map_fst_zip tokens values (le_of_eq hlen)]
  · intro hlen
    unfold jupyter_heatmap
    rw [if_pos hlen]

/-- Witness for C5: two tokens with in-range relevances on a `min`-bearing
(hence non-empty here) input render to two spans carrying the tokens in
order; a 1-token / 0-relevance call errors. -/
theorem jupyter_heatmap_render_contract_witness :
    (∃ spans, jupyter_heatmap [['a'], ['b']] ⟨[1/2, -1/2], true⟩ exCmap = Except.ok spans ∧
       spans.map Span.token = [['a'], ['b']]) ∧
    jupyter_heatmap [['a']] ⟨[], true⟩ exCmap = Except.error lengthErrorMsg :=
  ⟨(jupyter_heatmap_render_contract [['a'], ['b']] [1/2, -1/2] true exCmap).1 rfl
     (by
       intro v hv
       simp only [List.mem_cons, List.not_mem_nil, or_false] at hv
       rcases hv with rfl | rfl <;> norm_num)
     (fun _ => by simp),
   (jupyter_heatmap_render_contract [['a']] [] true exCmap).2 (by simp)⟩

/-- C6: when the relevances object exposes a `min` attribute, any value
outside `[-1, 1]` makes `jupyter_heatmap` fail with the range validation
error; without the attribute no range check happens and rendering proceeds
to the full span list regardless of the values. -/
theorem jupyter_heatmap_range_validation (tokens : List (List Char)) (values : List ℚ)
    (cmapFn : ℚ → ℚ × ℚ × ℚ) (hlen : tokens.length = values.length) :
    (∀ v ∈ values, (v < -1 ∨ 1 < v) →
      jupyter_heatmap tokens ⟨values, true⟩ cmapFn = Except.error rangeErrorMsg) ∧
    jupyter_heatmap tokens ⟨values, false⟩ cmapFn =
      Except.ok ((tokens.zip values).map (fun p => renderSpan cmapFn p.1 p.2)) := by
  constructor
  · intro v hv hout
    rw [jupyter_heatmap_of_len_eq tokens values true cmapFn hlen]
    have hcheck : rangeCheck true values = Except.error rangeErrorMsg := by
      cases values with
      | nil => cases hv
      | cons x xs =>
        rw [rangeCheck_true_cons, if_pos]
        intro hr
        rcases hout with h | h
        · exact absurd (le_trans hr.1 (cons_min_le_of_mem hv)) (not_le.mpr h)
        · exact absurd (le_trans (le_cons_max_of_mem hv) hr.2) (not_le.mpr h)
    rw [hcheck]
  · rw [jupyter_heatmap_of_len_eq tokens values false cmapFn hlen, rangeCheck_false]

/-- Witness for C6: the out-of-range relevance `2` errors with a `min`-bearing
input and renders silently with a plain-list input. -/
theorem jupyter_heatmap_range_validation_witness :
    jupyter_heatmap [['a']] ⟨[2], true⟩ exCmap = Except.error rangeErrorMsg ∧
    jupyter_heatmap [['a']] ⟨[2], false⟩ exCmap =
      Except.ok (([['a']].zip [(2 : ℚ)]).map (fun p => renderSpan exCmap p.1 p.2)) :=
  ⟨(jupyter_heatmap_range_validation [['a']] [2] exCmap rfl).1 2
     (List.mem_singleton.mpr rfl) (Or.inr (by norm_num)),
   (jupyter_heatmap_range_validation [['a']] [2] exCmap rfl).2⟩

/-! Bubble chart plotter -/

/-- The pandas dtype of the color column, as far as `plot_atlas` inspects it:
`object`, the name `category`, or a numeric dtype. -/
inductive Dtype
  | object
  | category
  | int64
  | float64
deriving DecidableEq

/-- One data-frame row: `head` and `layer` ids, the `size_col` score, the
`color_col` value, and the `abs_score_temp` column (absent on input,
added by `plot_atlas` on its working copy). -/
structure Row (α : Type) where
  head : Int
  layer : Int
  score : ℚ
  color : α
  absScoreTemp : Option ℚ := none
deriving DecidableEq

/-- The data frame passed to `plot_atlas`: its rows plus the dtype of the
color column. -/
structure DataFrame (α : Type) where
  rows : List (Row α)
  colorDtype : Dtype
deriving DecidableEq

section Atlas

variable {α : Type} [DecidableEq α] [LinearOrder α]

/-- `df[color_col].nunique()`: the number of distinct color values. -/
def DataFrame.nunique (df : DataFrame α) : Nat :=
  ((df.rows.map Row.color).dedup).length

/-- Step 1 of `plot_atlas`: `is_categorical` is set when the color column's
dtype is `object` or named `category`, and otherwise when
`df[color_col].nunique() < 20`. -/
def isCategoricalDf (df : DataFrame α) : Bool :=
  if df.colorDtype = Dtype.object ∨ df.colorDtype = Dtype.category then true
  else if df.nunique < 20 then true
  else false

/-- Reading the `abs_score_temp` column of a row. -/
def tempKey (r : Row α) : ℚ := r.absScoreTemp.getD 0

/-- `df_plot['abs_score_temp'] = df_plot[size_col].abs()`. -/
def addAbsCol (df : DataFrame α) : DataFrame α :=
  { df with rows := df.rows.map (fun r => { r with absScoreTemp := some |r.score| }) }

/-- Descending comparison on `abs_score_temp`, ties broken stably in favour
of earlier rows (pandas `nlargest` with the default `keep='first'`). -/
def scoreDesc (a b : Row α) : Bool := decide (tempKey b ≤ tempKey a)

/-- `rows.nlargest(k, 'abs_score_temp')`: the first `k` rows of the stable
descending sort by `abs_score_temp`. -/
def nlargest (k : Nat) (rows : List (Row α)) : List (Row α) :=
  (rows.mergeSort scoreDesc).take k

/-- `sorted(df[color_col].unique())`, also the iteration order of the groups
of `groupby(color_col)` (pandas sorts group keys by default). -/
def sortedUnique (rows : List (Row α)) : List α :=
  ((rows.map Row.color).dedup).mergeSort (fun a b => decide (a ≤ b))

/-- `df.groupby(color_col, group_keys=False).apply(lambda x: x.nlargest(top_k,
'abs_score_temp'))`: per distinct color value, keep its `top_k`
largest-magnitude rows, concatenated in sorted key order. -/
def groupbyNlargest (k : Nat) (rows : List (Row α)) : List (Row α) :=
  (sortedUnique rows).flatMap
    (fun c => nlargest k (rows.filter (fun r => decide (r.color = c))))

/-- The filtering step applied to the working frame when `top_k` is given. -/
def filterStep (isCat : Bool) (k : Nat) (d : DataFrame α) : DataFrame α :=
  if isCat then { d with rows := groupbyNlargest k d.rows }
  else { d with rows := nlargest k d.rows }

/-- `np.arange(0, stop, step)` for integer `stop` and positive `step`. -/
def arange (stop : Int) (step : Nat) : List Int :=
  (List.range ((stop.toNat + step - 1) / step)).map (fun i => ((i * step : Nat) : Int))

/-- Default value used for out-of-range heap reads (never reached). -/
def emptyDF : DataFrame α := ⟨[], Dtype.object⟩

/-- The observable outcome of a `plot_atlas` call: the final heap of
data-frame objects (cell 0 is the object the caller's `df` name points to,
so mutation of the caller's data would show up there), the frame actually
plotted, the color-mode flag, the legend's category values (categorical mode
only) and the axis tick positions (skipped for an empty input). -/
structure AtlasResult (α : Type) where
  heap : List (DataFrame α)
  dfPlot : DataFrame α
  isCategorical : Bool
  legendVals : Option (List α)
  xticks : Option (List Int)
  yticks : Option (List Int)

/-- `plot_atlas(df, top_k=topK, ...)`.  Python objects live on a heap and
variables are references: `df` is cell 0; `df.copy()` allocates cell 1;
the `abs_score_temp` column assignment mutates cell 1 in place; the `top_k`
filtering rebinds `df_plot` to a freshly allocated cell 2.  Axis ticks are
computed at the end from the variable `df` (cell 0), guarded by `df.empty`;
the legend (categorical mode) lists `sorted(df_plot[color_col].unique())`. -/
def plotAtlas (df : DataFrame α) (topK : Option Nat) : AtlasResult α :=
  let heap0 : List (DataFrame α) := [df]
  let isCat := isCategoricalDf (heap0.getD 0 emptyDF)
  let heap1 := heap0 ++ [heap0.getD 0 emptyDF]
  let heap2 := heap1.set 1 (addAbsCol (heap1.getD 1 emptyDF))
  let st :=
    match topK with
    | some k => (heap2 ++ [filterStep isCat k (heap2.getD 1 emptyDF)], 2)
    | none => (heap2, 1)
  let dfPlot := st.1.getD st.2 emptyDF
  let legendVals := if isCat then some (sortedUnique dfPlot.rows) else none
  let dfTick := st.1.getD 0 emptyDF
  let xt := if dfTick.rows.isEmpty then none
            else some (arange (((dfTick.rows.map Row.head).max?.getD 0) + 1) 2)
  let yt := if dfTick.rows.isEmpty then none
            else some (arange (((dfTick.rows.map Row.layer).max?.getD 0) + 1) 1)
  { heap := st.1, dfPlot := dfPlot, isCategorical := isCat,
    legendVals := legendVals, xticks := xt, yticks := yt }

lemma scoreDesc_trans (a b c : Row α) (hab : scoreDesc a b = true)
    (hbc : scoreDesc b c = true) : scoreDesc a c = true := by
  simp only [scoreDesc, decide_eq_true_eq] at *
  exact le_trans hbc hab

lemma scoreDesc_total (a b : Row α) : (scoreDesc a b || scoreDesc b a) = true := by
  simp only [scoreDesc, Bool.or_eq_true, decide_eq_true_eq]
  exact le_total (tempKey b) (tempKey a)

lemma nlargest_length (k : Nat) (rows : List (Row α)) :
    (nlargest k rows).length = min k rows.length := by
  simp [nlargest, List.length_take, List.length_mergeSort]

lemma nlargest_subset {k : Nat} {rows : List (Row α)} {x : Row α}
    (hx : x ∈ nlargest k rows) : x ∈ rows :=
  (List.mergeSort_perm rows scoreDesc).mem_iff.mp (List.mem_of_mem_take hx)

lemma nlargest_le {k : Nat} {rows : List (Row α)} {y x : Row α}
    (hy : y ∈ rows) (hyn : y ∉ nlargest k rows) (hx : x ∈ nlargest k rows) :
    tempKey y ≤ tempKey x := by
  simp only [nlargest] at hyn hx
  have hperm := List.mergeSort_perm rows (scoreDesc : Row α → Row α → Bool)
  have hsort := @List.sorted_mergeSort (Row α) scoreDesc
    scoreDesc_trans scoreDesc_total rows
  have hsplit := List.take_append_drop k (rows.mergeSort scoreDesc)
  have hy2 : y ∈ (rows.mergeSort scoreDesc).take k ++ (rows.mergeSort scoreDesc).drop k := by
    rw [hsplit]
    exact hperm.mem_iff.mpr hy
  have hyd : y ∈ (rows.mergeSort scoreDesc).drop k := by
    rcases List.mem_append.mp hy2 with h | h
    · exact absurd h hyn
    · exact h
  rw [← hsplit, List.pairwise_append] at hsort
  have hxy := hsort.2.2 x hx y hyd
  simpa [scoreDesc, decide_eq_true_eq] using hxy

lemma mem_sortedUnique {rows : List (Row α)} {c : α} :
    c ∈ sortedUnique rows ↔ c ∈ rows.map Row.color := by
  unfold sortedUnique
  rw [(List.mergeSort_perm _ _).mem_iff, List.mem_dedup]

lemma nodup_sortedUnique (rows : List (Row α)) : (sortedUnique rows).Nodup :=
  (List.mergeSort_perm _ _).symm.nodup (List.nodup_dedup _)

lemma flatMap_filter_color {l : List α} (hnd : l.Nodup) (g : α → List (Row α))
    (hg : ∀ c' ∈ l, ∀ x ∈ g c', x.color = c') (c : α) :
    (l.flatMap g).filter (fun r => decide (r.color = c)) = if c ∈ l then g c else [] := by
  induction l with
  | nil => simp
  | cons a l ih =>
    rw [List.nodup_cons] at hnd
    rw [List.flatMap_cons, List.filter_append,
      ih hnd.2 (fun c' h' x hx => hg c' (List.mem_cons_of_mem _ h') x hx)]
    by_cases hac : a = c
    · subst hac
      rw [if_neg hnd.1, if_pos (List.mem_cons_self _ _), List.append_nil]
      exact List.filter_eq_self.mpr (fun x hx => by
        simp [hg a (List.mem_cons_self _ _) x hx])
    · have h1 : (g a).filter (fun r => decide (r.color = c)) = [] :=
        List.filter_eq_nil_iff.mpr (fun x hx => by
          simp [hg a (List.mem_cons_self _ _) x hx, hac])
      rw [h1, List.nil_append]
      have hca : ¬ (c = a) := fun h => hac h.symm
      by_cases hcl : c ∈ l <;> simp [hcl, List.mem_cons, hca]

lemma color_of_mem_nlargest_filter {k : Nat} {rows : List (Row α)} {c : α} {x : Row α}
    (hx : x ∈ nlargest k (rows.filter (fun r => decide (r.color = c)))) : x.color = c := by
  have hm := nlargest_subset hx
  rw [List.mem_filter] at hm
  simpa using hm.2

lemma groupbyNlargest_filter (k : Nat) (rows : List (Row α)) (c : α) :
    (groupbyNlargest k rows).filter (fun r => decide (r.color = c)) =
      if c ∈ rows.map Row.color then
        nlargest k (rows.filter (fun r => decide (r.color = c))) else [] := by
  unfold groupbyNlargest
  rw [flatMap_filter_color (nodup_sortedUnique rows) _
    (fun c' _ x hx => color_of_mem_nlargest_filter hx) c]
  by_cases h : c ∈ rows.map Row.color
  · rw [if_pos (mem_sortedUnique.mpr h), if_pos h]
  · rw [if_neg (fun hm => h (mem_sortedUnique.mp hm)), if_neg h]

lemma groupbyNlargest_subset {k : Nat} {rows : List (Row α)} {x : Row α}
    (hx : x ∈ groupbyNlargest k rows) : x ∈ rows := by
  unfold groupbyNlargest at hx
  obtain ⟨c, hc, hxc⟩ := List.mem_flatMap.mp hx
  exact List.mem_of_mem_filter (nlargest_subset hxc)

lemma tempKey_addAbs {df : DataFrame α} {x : Row α} (hx : x ∈ (addAbsCol df).rows) :
    tempKey x = |x.score| := by
  unfold addAbsCol at hx
  obtain ⟨r, hr, rfl⟩ := List.mem_map.mp hx
  rfl

lemma map_color_addAbs (df : DataFrame α) :
    (addAbsCol df).rows.map Row.color = df.rows.map Row.color := by
  unfold addAbsCol
  rw [List.map_map]
  exact List.map_congr_left (fun r _ => rfl)

lemma dfPlot_some_cat {df : DataFrame α} (k : Nat) (hcat : isCategoricalDf df = true) :
    (plotAtlas df (some k)).dfPlot.rows = groupbyNlargest k (addAbsCol df).rows := by
  have hdfp : (plotAtlas df (some k)).dfPlot =
      filterStep (isCategoricalDf df) k (addAbsCol df) := rfl
  rw [hdfp, filterStep, if_pos hcat]

lemma dfPlot_some_cont {df : DataFrame α} (k : Nat) (hcat : isCategoricalDf df = false) :
    (plotAtlas df (some k)).dfPlot.rows = nlargest k (addAbsCol df).rows := by
  have hdfp : (plotAtlas df (some k)).dfPlot =
      filterStep (isCategoricalDf df) k (addAbsCol df) := rfl
  rw [hdfp, filterStep, if_neg (by simp [hcat])]

/-- C3: `plot_atlas` treats the color column as categorical exactly when its
dtype is non-numeric (`object` or `category`) or its number of distinct
values is below 20; so a numeric column with 19 distinct values is
categorical and one with 20 is continuous. -/
theorem plot_atlas_classification (df : DataFrame α) (topK : Option Nat) :
    (plotAtlas df topK).isCategorical = true ↔
      (df.colorDtype = Dtype.object ∨ df.colorDtype = Dtype.category ∨
        df.nunique < 20) := by
  have h : (plotAtlas df topK).isCategorical = isCategoricalDf df := rfl
  rw [h]
  unfold isCategoricalDf
  split_ifs with h1 h2 <;> simp <;> first | tauto | (push_neg at h2 ⊢; tauto)

/-- C2: with `top_k = k`, categorical mode keeps at most `k` rows per
distinct category value, each dropped row of a category having absolute
score at most that of every kept row of the same category; continuous mode
keeps exactly `min k (row count)` rows globally, each dropped row having
absolute score at most that of every kept row. -/
theorem plot_atlas_topk (df : DataFrame α) (k : Nat) :
    (isCategoricalDf df = true →
      ∀ c : α,
        (((plotAtlas df (some k)).dfPlot.rows.filter
            (fun r => decide (r.color = c))).length ≤ k ∧
          ∀ y ∈ (addAbsCol df).rows, y.color = c →
            y ∉ (plotAtlas df (some k)).dfPlot.rows →
            ∀ x ∈ (plotAtlas df (some k)).dfPlot.rows, x.color = c →
              |y.score| ≤ |x.score|)) ∧
    (isCategoricalDf df = false →
      ((plotAtlas df (some k)).dfPlot.rows.length = min k df.rows.length ∧
        ∀ y ∈ (addAbsCol df).rows, y ∉ (plotAtlas df (some k)).dfPlot.rows →
          ∀ x ∈ (plotAtlas df (some k)).dfPlot.rows, |y.score| ≤ |x.score|)) := by
  constructor
  · intro hcat c
    have hrows := dfPlot_some_cat k hcat
    constructor
    · rw [hrows, groupbyNlargest_filter]
      split_ifs with h
      · exact le_trans (le_of_eq (nlargest_length _ _)) (min_le_left _ _)
      · simp
    · intro y hy hyc hyn x hx hxc
      rw [hrows] at hyn hx
      have hxf : x ∈ (groupbyNlargest k (addAbsCol df).rows).filter
          (fun r => decide (r.color = c)) := List.mem_filter.mpr ⟨hx, by simp [hxc]⟩
      rw [groupbyNlargest_filter] at hxf
      by_cases hcm : c ∈ (addAbsCol df).rows.map Row.color
      case neg =>
        rw [if_neg hcm] at hxf
        cases hxf
      rw [if_pos hcm] at hxf
      have hyf : y ∈ (addAbsCol df).rows.filter (fun r => decide (r.color = c)) :=
        List.mem_filter.mpr ⟨hy, by simp [hyc]⟩
      have hynf : y ∉ nlargest k ((addAbsCol df).rows.filter
          (fun r => decide (r.color = c))) := by
        intro hmem
        apply hyn
        have hyg : y ∈ (groupbyNlargest k (addAbsCol df).rows).filter
            (fun r => decide (r.color = c)) := by
          rw [groupbyNlargest_filter, if_pos hcm]
          exact hmem
        exact List.mem_of_mem_filter hyg
      have hle := nlargest_le hyf hynf hxf
      rwa [tempKey_addAbs hy, tempKey_addAbs (groupbyNlargest_subset hx)] at hle
  · intro hcat
    have hrows := dfPlot_some_cont k hcat
    constructor
    · rw [hrows, nlargest_length]
      have hlen : (addAbsCol df).rows.length = df.rows.length := by simp [addAbsCol]
      rw [hlen]
    · intro y hy hyn x hx
      rw [hrows] at hyn hx
      have hle := nlargest_le hy hyn hx
      rwa [tempKey_addAbs hy, tempKey_addAbs (nlargest_subset hx)] at hle

/-- C10: in categorical mode with `top_k = k ≥ 1`, every category value
present in the input survives the per-category filtering and appears among
the legend's values. -/
theorem plot_atlas_keeps_categories (df : DataFrame α) (k : Nat) (hk : 1 ≤ k)
    (hcat : isCategoricalDf df = true) (c : α) (hc : c ∈ df.rows.map Row.color) :
    c ∈ (plotAtlas df (some k)).dfPlot.rows.map Row.color ∧
    c ∈ ((plotAtlas df (some k)).legendVals.getD []) := by
  have hrows := dfPlot_some_cat k hcat
  have hcm : c ∈ (addAbsCol df).rows.map Row.color := by
    rw [map_color_addAbs]
    exact hc
  obtain ⟨r, hr, hrc⟩ := List.mem_map.mp hcm
  have hrf : r ∈ (addAbsCol df).rows.filter (fun x => decide (x.color = c)) :=
    List.mem_filter.mpr ⟨hr, by simp [hrc]⟩
  have hpos : 0 < (nlargest k ((addAbsCol df).rows.filter
      (fun x => decide (x.color = c)))).length := by
    rw [nlargest_length]
    exact lt_min hk (List.length_pos.mpr (List.ne_nil_of_mem hrf))
  obtain ⟨x, hxmem⟩ := List.exists_mem_of_ne_nil _ (List.length_pos.mp hpos)
  have hx : x ∈ (plotAtlas df (some k)).dfPlot.rows := by
    rw [hrows]
    have hxg : x ∈ (groupbyNlargest k (addAbsCol df).rows).filter
        (fun r => decide (r.color = c)) := by
      rw [groupbyNlargest_filter, if_pos hcm]
      exact hxmem
    exact List.mem_of_mem_filter hxg
  have hxc : x.color = c := color_of_mem_nlargest_filter hxmem
  refine ⟨List.mem_map.mpr ⟨x, hx, hxc⟩, ?_⟩
  have hlg : (plotAtlas df (some k)).legendVals =
      some (sortedUnique (plotAtlas df (some k)).dfPlot.rows) := by
    have hif : (plotAtlas df (some k)).legendVals =
        if isCategoricalDf df then
          some (sortedUnique (plotAtlas df (some k)).dfPlot.rows) else none := rfl
    rw [hif, if_pos hcat]
  rw [hlg]
  exact mem_sortedUnique.mpr (List.mem_map.mpr ⟨x, hx, hxc⟩)

/-- C7: `plot_atlas` never mutates the caller's data frame: the object the
caller's `df` reference points to (heap cell 0) is unchanged at the end of
the call; the temporary column and the filtering only touch the copy. -/
theorem plot_atlas_no_mutation (df : DataFrame α) (topK : Option Nat) :
    (plotAtlas df topK).heap.head? = some df ∧
    (plotAtlas df topK).heap.getD 0 emptyDF = df := by
  cases topK <;> exact ⟨rfl, rfl⟩

/-- C8: axis ticks come from the unfiltered input — `0, 2, …` up to the
maximum head id and `0, 1, …` up to the maximum layer id — independently of
`top_k`, and for an empty input tick computation is skipped (the call still
returns a result). -/
theorem plot_atlas_ticks (df : DataFrame α) (topK : Option Nat) :
    ((plotAtlas df topK).xticks = if df.rows.isEmpty then none
        else some (arange (((df.rows.map Row.head).max?.getD 0) + 1) 2)) ∧
    ((plotAtlas df topK).yticks = if df.rows.isEmpty then none
        else some (arange (((df.rows.map Row.layer).max?.getD 0) + 1) 1)) ∧
    (plotAtlas df topK).xticks = (plotAtlas df none).xticks ∧
    (plotAtlas df topK).yticks = (plotAtlas df none).yticks := by
  cases topK <;> exact ⟨rfl, rfl, rfl, rfl⟩

end Atlas

/-- A concrete categorical frame for witnesses: three rows, string-valued
color column of dtype `object` with categories `"a"` and `"b"`. -/
def dfCat : DataFrame String :=
  ⟨[⟨0, 0, 1, "a", none⟩, ⟨1, 0, 2, "a", none⟩, ⟨2, 1, 3, "b", none⟩], Dtype.object⟩

/-- Witness for C2 at a concrete frame: with `top_k = 1`, category `"a"`
keeps at most one row. -/
theorem plot_atlas_topk_witness :
    ((plotAtlas dfCat (some 1)).dfPlot.rows.filter
      (fun r => decide (r.color = "a"))).length ≤ 1 :=
  ((plot_atlas_topk dfCat 1).1 (by decide) "a").1

/-- Witness for C10 at a concrete frame: category `"b"` survives `top_k = 1`
filtering. -/
theorem plot_atlas_keeps_categories_witness :
    "b" ∈ (plotAtlas dfCat (some 1)).dfPlot.rows.map Row.color :=
  (plot_atlas_keeps_categories dfCat 1 (by decide) (by decide) "b" (by decide)).1
